import Mathlib

/-!
Verification of the contacts backend (src/server.js).

The server is a small Express application exposing five CRUD handlers over a
contact collection persisted as a JSON file.  We give a shallow embedding:

* `Contact` is the record type of the data model (string fields id, name,
  phone), and the five route handlers are translated as pure functions over
  the persisted collection, with the current timestamp (`Date.now()`) and the
  success of the underlying file write passed in as explicit parameters.
* the durable artifact and the helper functions `readContacts` /
  `writeContacts` are modelled at the level of parsed JSON values (`Json`):
  the artifact either is missing, holds text that is not valid JSON, or holds
  text parsing to a JSON value.  The JSON text layer itself (stringify and
  parse of the Node standard library) is an external collaborator and is
  abstracted as an exact inverse pair on the values produced by the server,
  which it is for arrays of objects with string fields.
* for claims about malformed request bodies, request-body fields are
  modelled as dynamic values (`JsVal`), where calling trim on a non-string
  raises a TypeError that the generic catch branch of each handler absorbs.
-/

namespace ContactsServer

/-- Contact record of the data model: fields id, name, phone, all strings. -/
structure Contact where
  id : String
  name : String
  phone : String
  deriving DecidableEq, Repr

/-- Payload carried in the data field of a response: either the full
collection (GET list) or a single contact (GET one, POST, PUT). -/
inductive RespData where
  | contacts (cs : List Contact)
  | contact (c : Contact)
  deriving DecidableEq, Repr

/-- An HTTP response as produced by res.status(...).json(...): the status
code and the fields of the JSON body.  Every body literal in the source has
a success and a message field; the data field is optional. -/
structure ApiResponse where
  status : Nat
  success : Bool
  message : String
  data : Option RespData
  deriving DecidableEq, Repr

/-- Effects a handler performs against the durable artifact: a call to
readContacts or a call (attempted write) to writeContacts. -/
inductive Effect where
  | load
  | save
  deriving DecidableEq, Repr

/-- Result of running a mutating handler: the response sent, the persisted
collection afterwards, and the trace of storage effects performed. -/
structure HandlerOut where
  resp : ApiResponse
  state : List Contact
  effects : List Effect
  deriving DecidableEq, Repr

/-- Evaluation of the JS method String.prototype.trim: strips leading and
trailing whitespace.  Defined structurally over the character list so that
it evaluates inside the kernel (the library function String.trim is
extensionally the same but is defined by well-founded recursion on byte
positions). -/
def jsStringTrim (s : String) : String :=
  ⟨((s.data.dropWhile Char.isWhitespace).reverse.dropWhile Char.isWhitespace).reverse⟩

/-- Handler GET /api/contacts (src/server.js lines 46-53): loads the
collection and returns it whole. -/
def getContacts (contacts : List Contact) : ApiResponse :=
  { status := 200, success := true, message := "获取成功",
    data := some (.contacts contacts) }

/-- Handler GET /api/contacts/:id (src/server.js lines 56-68):
contacts.find returns the first record whose id strictly equals the route
parameter; absent means 404. -/
def getContact (contacts : List Contact) (id : String) : ApiResponse :=
  match contacts.find? (fun c => c.id == id) with
  | some c =>
      { status := 200, success := true, message := "获取成功",
        data := some (.contact c) }
  | none =>
      { status := 404, success := false, message := "联系人不存在", data := none }

/-- Handler POST /api/contacts (src/server.js lines 71-97) on string body
fields.  `ts` is the value of Date.now() and `writeOk` the result of
writeContacts.  Validation (empty trimmed name or phone) happens before the
collection is loaded, hence the empty effect trace on that branch.  The
local newContact of the source is inlined. -/
def addContact (contacts : List Contact) (ts : Nat) (name phone : String)
    (writeOk : Bool) : HandlerOut :=
  if jsStringTrim name = "" ∨ jsStringTrim phone = "" then
    { resp := { status := 400, success := false,
                message := "姓名和手机号不能为空", data := none },
      state := contacts, effects := [] }
  else if writeOk then
    { resp := { status := 201, success := true, message := "添加成功",
                data := some (.contact
                  ⟨toString ts, jsStringTrim name, jsStringTrim phone⟩) },
      state := contacts ++ [⟨toString ts, jsStringTrim name, jsStringTrim phone⟩],
      effects := [.load, .save] }
  else
    { resp := { status := 500, success := false, message := "添加失败", data := none },
      state := contacts, effects := [.load, .save] }

/-- Handler PUT /api/contacts/:id (src/server.js lines 100-126) on string
body fields.  findIndex returning -1 is modelled by findIdx? returning
none; on a hit the record is replaced in place by a fresh object built from
the route id and the trimmed body fields. -/
def updateContact (contacts : List Contact) (id name phone : String)
    (writeOk : Bool) : HandlerOut :=
  if id = "" ∨ jsStringTrim name = "" ∨ jsStringTrim phone = "" then
    { resp := { status := 400, success := false,
                message := "ID、姓名和手机号不能为空", data := none },
      state := contacts, effects := [] }
  else
    match contacts.findIdx? (fun c => c.id == id) with
    | none =>
        { resp := { status := 404, success := false, message := "联系人不存在", data := none },
          state := contacts, effects := [.load] }
    | some index =>
        if writeOk then
          { resp := { status := 200, success := true, message := "修改成功",
                      data := some (.contact
                        ⟨id, jsStringTrim name, jsStringTrim phone⟩) },
            state := contacts.set index ⟨id, jsStringTrim name, jsStringTrim phone⟩,
            effects := [.load, .save] }
        else
          { resp := { status := 500, success := false, message := "修改失败", data := none },
            state := contacts, effects := [.load, .save] }

/-- Handler DELETE /api/contacts/:id (src/server.js lines 129-151): filters
out every record whose id equals the route parameter; an unchanged length
means nothing matched, hence 404.  The success body carries no data field. -/
def deleteContact (contacts : List Contact) (id : String) (writeOk : Bool) :
    HandlerOut :=
  if id = "" then
    { resp := { status := 400, success := false, message := "ID不能为空", data := none },
      state := contacts, effects := [] }
  else if (contacts.filter fun c => !(c.id == id)).length = contacts.length then
    { resp := { status := 404, success := false, message := "联系人不存在", data := none },
      state := contacts, effects := [.load] }
  else if writeOk then
    { resp := { status := 200, success := true, message := "删除成功", data := none },
      state := contacts.filter fun c => !(c.id == id), effects := [.load, .save] }
  else
    { resp := { status := 500, success := false, message := "删除失败", data := none },
      state := contacts, effects := [.load, .save] }

/-- Parsed JSON values, the possible results of JSON.parse on the durable
artifact. Numbers are modelled as integers; the claims do not depend on the
fine structure of JS numbers. -/
inductive Json where
  | null
  | bool (b : Bool)
  | num (n : Int)
  | str (s : String)
  | arr (xs : List Json)
  | obj (fields : List (String × Json))

/-- Truthiness of a JSON value as a JS value, as used by the expression
JSON.parse(data) || [] in readContacts. -/
def jsTruthy : Json → Bool
  | .null => false
  | .bool b => b
  | .num n => n != 0
  | .str s => s != ""
  | .arr _ => true
  | .obj _ => true

/-- State of the durable artifact contacts.json: absent (or unreadable, the
readFile rejection is caught and replaced by the text of an empty array),
present but not valid JSON, or present and parsing to a JSON value. -/
inductive FileState where
  | missing
  | malformed
  | holds (v : Json)

/-- Helper readContacts (src/server.js lines 19-31), at the level of parsed
values.  A missing or unreadable file is read as the text of an empty array;
a JSON.parse failure is caught and yields an empty array; otherwise the
parsed value v is returned when truthy and replaced by an empty array when
falsy (the expression JSON.parse(data) || []).  No branch raises. -/
def readContacts : FileState → Json
  | .missing => .arr []
  | .malformed => .arr []
  | .holds v => if jsTruthy v then v else .arr []

/-- Encoding of a contact record as the JSON object written by
JSON.stringify inside writeContacts (src/server.js line 36). -/
def encodeContact (c : Contact) : Json :=
  .obj [("id", .str c.id), ("name", .str c.name), ("phone", .str c.phone)]

/-- Helper writeContacts (src/server.js lines 34-42) in the case where the
underlying write succeeds: the artifact afterwards holds exactly the
serialized collection.  The stringify / parse text layer is abstracted as
exact on these values. -/
def writeContacts (contacts : List Contact) : FileState :=
  .holds (.arr (contacts.map encodeContact))

/-- Interpretation of a JSON value as a contact record, the way the
handlers consume the parsed array (field access id, name, phone): defined
exactly when the value is an object whose id, name and phone fields are
strings. -/
def decodeContact (v : Json) : Option Contact :=
  match v with
  | .obj [("id", .str i), ("name", .str n), ("phone", .str p)] =>
      some { id := i, name := n, phone := p }
  | _ => none

/-- Interpretation of a JSON value as a contact collection: an array whose
every element decodes as a contact record. -/
def decodeContacts (v : Json) : Option (List Contact) :=
  match v with
  | .arr xs => xs.mapM decodeContact
  | _ => none

/-- Decidable check that a JSON value is a valid sequence of contact
records, in the sense of the persisted state layout. -/
def isContactArray (v : Json) : Bool :=
  (decodeContacts v).isSome

/-- Dynamic JS values, used to model request-body fields after
destructuring: a missing body field destructures to undefined, and the
parsed JSON body may hold values of any type. -/
inductive JsVal where
  | undef
  | null
  | bool (b : Bool)
  | num (n : Int)
  | str (s : String)
  | arr
  | obj
  deriving DecidableEq, Repr

/-- Result of evaluating v.trim() on a dynamic value: only strings have a
trim method; on every other value the call raises a TypeError, which the
generic catch branch of the handler absorbs. -/
def jsTrim : JsVal → Except Unit String
  | .str s => .ok (jsStringTrim s)
  | _ => .error ()

/-- String payload of a dynamic value known to be a string. -/
def strOf : JsVal → String
  | .str s => s
  | _ => ""

/-- Whether a dynamic value is a string. -/
def isStr : JsVal → Bool
  | .str _ => true
  | _ => false

/-- Handler POST /api/contacts on raw body fields (src/server.js lines
71-97): the validation expression evaluates the trim of name first and
short-circuits, so a TypeError from either trim call
lands in the catch branch (lines 94-96) and produces the generic 500
envelope. -/
def postHandler (contacts : List Contact) (ts : Nat) (name phone : JsVal)
    (writeOk : Bool) : HandlerOut :=
  match jsTrim name with
  | .error _ =>
      { resp := { status := 500, success := false, message := "添加失败", data := none },
        state := contacts, effects := [] }
  | .ok n =>
      if n = "" then
        { resp := { status := 400, success := false,
                    message := "姓名和手机号不能为空", data := none },
          state := contacts, effects := [] }
      else
        match jsTrim phone with
        | .error _ =>
            { resp := { status := 500, success := false, message := "添加失败", data := none },
              state := contacts, effects := [] }
        | .ok _ => addContact contacts ts (strOf name) (strOf phone) writeOk

/-- Handler PUT /api/contacts/:id on raw body fields (src/server.js lines
100-126): the route id is always a string, and the validation expression
the validation expression short-circuits left to right (id first); a
TypeError from a trim call lands in the catch branch (lines 123-125). -/
def putHandler (contacts : List Contact) (id : String) (name phone : JsVal)
    (writeOk : Bool) : HandlerOut :=
  if id = "" then
    { resp := { status := 400, success := false,
                message := "ID、姓名和手机号不能为空", data := none },
      state := contacts, effects := [] }
  else
    match jsTrim name with
    | .error _ =>
        { resp := { status := 500, success := false, message := "修改失败", data := none },
          state := contacts, effects := [] }
    | .ok n =>
        if n = "" then
          { resp := { status := 400, success := false,
                      message := "ID、姓名和手机号不能为空", data := none },
            state := contacts, effects := [] }
        else
          match jsTrim phone with
          | .error _ =>
              { resp := { status := 500, success := false, message := "修改失败", data := none },
                state := contacts, effects := [] }
          | .ok _ => updateContact contacts id (strOf name) (strOf phone) writeOk

/-- Evaluation of the predicate c.id === id on a raw element of the parsed
array, for an element that is a JSON value: field access on an object
yields the field (or undefined when absent), field access on a non-object
primitive yields undefined, and strict equality with a string holds exactly
for the same string.  (A null element would instead raise; such states
never complete an update and are outside this predicate.) -/
def jsonIdMatches (id : String) (v : Json) : Bool :=
  match v with
  | .obj fields =>
      match fields.find? (fun kv => kv.1 == "id") with
      | some (_, .str s) => s == id
      | _ => false
  | _ => false

/-- Mutation core of the PUT handler on the raw parsed array (src/server.js
lines 109-117): the record at the found index is replaced by a fresh object
literal with exactly the fields id, name and phone. -/
def updateContactsJ (records : List Json) (id name phone : String) : List Json :=
  match records.findIdx? (jsonIdMatches id) with
  | none => records
  | some index =>
      records.set index
        (.obj [("id", .str id), ("name", .str (jsStringTrim name)),
               ("phone", .str (jsStringTrim phone))])

/-- One mutating operation against the store, with its external inputs: the
Date.now() timestamp for add, and the result of the underlying file write
for each. -/
inductive Op where
  | add (ts : Nat) (name phone : String) (writeOk : Bool)
  | update (id name phone : String) (writeOk : Bool)
  | delete (id : String) (writeOk : Bool)
  deriving DecidableEq, Repr

/-- Persisted collection after one operation: the state component of the
corresponding handler. -/
def applyOp (contacts : List Contact) : Op → List Contact
  | .add ts name phone w => (addContact contacts ts name phone w).state
  | .update id name phone w => (updateContact contacts id name phone w).state
  | .delete id w => (deleteContact contacts id w).state

/-- Persisted collection after a sequence of operations starting from the
empty collection. -/
def run (ops : List Op) : List Contact :=
  ops.foldl applyOp []

/-- Ids that the add operations of a sequence would generate
(Date.now().toString() for each). -/
def addIds : List Op → List String
  | [] => []
  | .add ts _ _ _ :: ops => toString ts :: addIds ops
  | .update _ _ _ _ :: ops => addIds ops
  | .delete _ _ :: ops => addIds ops

/-! Helper lemmas shared by the claim theorems. -/

lemma length_filter_ne_add_countP (L : List Contact) (id : String) :
    (L.filter fun c => !(c.id == id)).length + L.countP (fun c => c.id == id) = L.length := by
  induction L with
  | nil => rfl
  | cons c L ih =>
      by_cases h : c.id = id <;>
        simp [List.filter_cons, List.countP_cons, h] <;> omega

lemma mapM_decode_encode (L : List Contact) :
    (L.map encodeContact).mapM decodeContact = some L := by
  induction L with
  | nil => rfl
  | cons c L ih =>
      have hc : decodeContact (encodeContact c) = some c := rfl
      rw [List.map_cons, List.mapM_cons, hc, ih]
      rfl

lemma countP_id_eq_one (L : List Contact) (id : String)
    (hnodup : (L.map fun c => c.id).Nodup) (hmem : ∃ c ∈ L, c.id = id) :
    L.countP (fun c => c.id == id) = 1 := by
  obtain ⟨c, hc, hcid⟩ := hmem
  have hidmem : id ∈ L.map fun c => c.id := List.mem_map.mpr ⟨c, hc, hcid⟩
  have hcount := List.count_eq_one_of_mem hnodup hidmem
  rw [List.count_eq_countP, List.countP_map] at hcount
  exact hcount

end ContactsServer

namespace ContactsServer

lemma set_getElem_self (l : List String) (i : Nat) (h : i < l.length) :
    l.set i (l.get ⟨i, h⟩) = l := by
  induction l generalizing i with
  | nil => rfl
  | cons a l ih =>
      cases i with
      | zero => rfl
      | succ i =>
          have h2 : i < l.length := by simpa using h
          show a :: l.set i (l.get ⟨i, h2⟩) = a :: l
          rw [ih i h2]

lemma ids_add_state (L : List Contact) (ts : Nat) (n p : String) (w : Bool) :
    (addContact L ts n p w).state.map (fun c => c.id) = L.map (fun c => c.id) ∨
    (addContact L ts n p w).state.map (fun c => c.id) =
      (L.map fun c => c.id) ++ [toString ts] := by
  unfold addContact
  by_cases h : jsStringTrim n = "" ∨ jsStringTrim p = ""
  · rw [if_pos h]
    exact Or.inl rfl
  · rw [if_neg h]
    cases w with
    | false => exact Or.inl rfl
    | true =>
        right
        show (L ++ [(⟨toString ts, jsStringTrim n, jsStringTrim p⟩ : Contact)]).map
            (fun c => c.id) = (L.map fun c => c.id) ++ [toString ts]
        rw [List.map_append]
        rfl

lemma ids_update_state (L : List Contact) (id n p : String) (w : Bool) :
    (updateContact L id n p w).state.map (fun c => c.id) = L.map fun c => c.id := by
  unfold updateContact
  by_cases h : id = "" ∨ jsStringTrim n = "" ∨ jsStringTrim p = ""
  · rw [if_pos h]
  · rw [if_neg h]
    cases hfind : L.findIdx? (fun c => c.id == id) with
    | none => rfl
    | some i =>
        cases w with
        | false => rfl
        | true =>
            have hlt : i < L.length := (List.findIdx?_eq_some_iff_findIdx_eq.mp hfind).1
            have hidx : L.findIdx (fun c => c.id == id) = i :=
              (List.findIdx?_eq_some_iff_findIdx_eq.mp hfind).2
            have hw : L.findIdx (fun c => c.id == id) < L.length := by omega
            have hpid : (L.get ⟨i, hlt⟩).id = id := by
              have h2 := @List.findIdx_getElem _ (fun c => c.id == id) L hw
              simp only [hidx] at h2
              simpa using h2
            show (L.set i ⟨id, jsStringTrim n, jsStringTrim p⟩).map (fun c => c.id) = _
            rw [List.map_set]
            have hm : i < (L.map fun c => c.id).length := by simpa using hlt
            have hgm : (L.map fun c => c.id).get ⟨i, hm⟩ = id := by
              simp only [List.get_eq_getElem, List.getElem_map]
              exact hpid
            calc ((L.map fun c => c.id).set i
              (⟨id, jsStringTrim n, jsStringTrim p⟩ : Contact).id)
                = (L.map fun c => c.id).set i ((L.map fun c => c.id).get ⟨i, hm⟩) := by
                  rw [hgm]
              _ = L.map fun c => c.id := set_getElem_self _ i hm

lemma ids_delete_sublist (L : List Contact) (id : String) (w : Bool) :
    ((deleteContact L id w).state.map fun c => c.id).Sublist (L.map fun c => c.id) := by
  unfold deleteContact
  by_cases hid : id = ""
  · rw [if_pos hid]
  · rw [if_neg hid]
    by_cases hlen : (L.filter fun c => !(c.id == id)).length = L.length
    · rw [if_pos hlen]
    · rw [if_neg hlen]
      cases w with
      | false => exact List.Sublist.refl _
      | true =>
          show ((L.filter fun c => !(c.id == id)).map fun c => c.id).Sublist
            (L.map fun c => c.id)
          exact List.Sublist.map _ (List.filter_sublist L)

lemma foldl_ids_nodup (ops : List Op) : ∀ (L : List Contact),
    ((L.map fun c => c.id).Nodup) → (addIds ops).Nodup →
    (∀ s ∈ addIds ops, s ∉ L.map fun c => c.id) →
    ((ops.foldl applyOp L).map fun c => c.id).Nodup := by
  induction ops with
  | nil =>
      intro L hL _ _
      simpa using hL
  | cons op ops ih =>
      intro L hL hops hdisj
      rw [List.foldl_cons]
      cases op with
      | add ts n p w =>
          have hap : applyOp L (.add ts n p w) = (addContact L ts n p w).state := rfl
          rw [hap]
          have hcons : addIds (.add ts n p w :: ops) = toString ts :: addIds ops := rfl
          rw [hcons] at hops hdisj
          have hops2 : (addIds ops).Nodup := (List.nodup_cons.mp hops).2
          have hnotmem : toString ts ∉ addIds ops := (List.nodup_cons.mp hops).1
          have htsL : toString ts ∉ L.map fun c => c.id :=
            hdisj _ (List.mem_cons_self _ _)
          rcases ids_add_state L ts n p w with he | he
          · refine ih _ (by rw [he]; exact hL) hops2 ?_
            intro s hs
            rw [he]
            exact hdisj s (List.mem_cons_of_mem _ hs)
          · refine ih _ ?_ hops2 ?_
            · rw [he]
              refine List.nodup_append.mpr ⟨hL, List.nodup_singleton _, ?_⟩
              intro x hx hx2
              rw [List.mem_singleton] at hx2
              subst hx2
              exact htsL hx
            · intro s hs
              rw [he]
              intro hmem
              rcases List.mem_append.mp hmem with h | h
              · exact hdisj s (List.mem_cons_of_mem _ hs) h
              · rw [List.mem_singleton] at h
                subst h
                exact hnotmem hs
      | update id n p w =>
          have he := ids_update_state L id n p w
          refine ih _ (by rw [show applyOp L (.update id n p w) =
              (updateContact L id n p w).state from rfl, he]; exact hL) hops ?_
          intro s hs
          rw [show applyOp L (.update id n p w) = (updateContact L id n p w).state from rfl, he]
          exact hdisj s hs
      | delete id w =>
          have hsub := ids_delete_sublist L id w
          refine ih _ (List.Nodup.sublist hsub hL) hops ?_
          intro s hs hmem
          exact hdisj s hs (hsub.subset hmem)

/-- Claim C1 (counterexample): the claim states that ids are pairwise
distinct after any sequence of operations, but two Adds sharing the same
Date.now() timestamp (two requests inside the same millisecond) generate
the same id, and the resulting collection holds duplicate ids. -/
theorem add_same_timestamp_duplicate_ids :
    ¬ ((run [.add 100 "a" "1" true, .add 100 "b" "2" true]).map fun c => c.id).Nodup := by
  decide

/-- Claim C1 (amended): provided the ids the Add operations generate
(Date.now().toString() for each) are pairwise distinct — which timestamp
collisions violate — any sequence of Add, Update and Delete operations
starting from the empty collection leaves the persisted ids pairwise
distinct: Update never changes an id and Delete only removes records. -/
theorem run_ids_nodup (ops : List Op) (h : (addIds ops).Nodup) :
    ((run ops).map fun c => c.id).Nodup :=
  foldl_ids_nodup ops [] (by simp) h (by simp)

/-- Claim C1 (witness for the amended theorem): two Adds with distinct
timestamps leave distinct ids. -/
theorem run_ids_nodup_witness :
    (addIds [.add 100 "a" "1" true, .add 101 "b" "2" true]).Nodup ∧
    ((run [.add 100 "a" "1" true, .add 101 "b" "2" true]).map fun c => c.id).Nodup :=
  ⟨by decide, run_ids_nodup [.add 100 "a" "1" true, .add 101 "b" "2" true] (by decide)⟩

/-- Claim C2 (counterexample): the claim states that whenever the durable
artifact does not parse as a valid sequence of Contact records, Load
returns the empty sequence.  A file holding the JSON object with a single
field x is valid JSON but not a sequence of Contact records, yet
readContacts returns that object unchanged, not the empty array. -/
theorem readContacts_truthy_nonarray_cex :
    isContactArray (Json.obj [("x", Json.num 1)]) = false ∧
    readContacts (.holds (.obj [("x", .num 1)])) ≠ .arr [] :=
  ⟨rfl, fun h => Json.noConfusion h⟩

/-- Claim C2 (amended): readContacts returns the empty array when the
artifact is missing or its content is not valid JSON, and in every case it
either returns the empty array or returns the parsed content verbatim (when
that content is a truthy JSON value, with no validation that it is a
sequence of Contact records); being a total function, it never propagates
an error to its caller. -/
theorem readContacts_spec (f : FileState) :
    readContacts .missing = .arr [] ∧ readContacts .malformed = .arr [] ∧
    (readContacts f = .arr [] ∨
      ∃ v, f = .holds v ∧ jsTruthy v = true ∧ readContacts f = v) := by
  refine ⟨rfl, rfl, ?_⟩
  match f with
  | .missing => exact Or.inl rfl
  | .malformed => exact Or.inl rfl
  | .holds v =>
      cases hv : jsTruthy v with
      | false => exact Or.inl (by simp [readContacts, hv])
      | true => exact Or.inr ⟨v, rfl, hv, by simp [readContacts, hv]⟩

/-- Claim C3 (counterexample): the claim states that every successful
response carries a data field, but the success response of the DELETE
handler is the envelope with success and message only and no data field. -/
theorem delete_success_no_data_cex :
    (deleteContact [⟨"1", "a", "2"⟩] "1" true).resp.success = true ∧
    (deleteContact [⟨"1", "a", "2"⟩] "1" true).resp.status = 200 ∧
    (deleteContact [⟨"1", "a", "2"⟩] "1" true).resp.data = none := by
  decide

/-- Claim C3 (amended): every response of the five handlers is an envelope
with a boolean success flag and a message string (by construction of
ApiResponse, every res.json literal in the source carries both), and every
successful response carries a data payload except the success response of
the DELETE handler, which carries none. -/
theorem envelope_spec (L : List Contact) (id name phone : String) (ts : Nat)
    (w : Bool) :
    ((getContacts L).success = true ∧ (getContacts L).data.isSome = true) ∧
    ((getContact L id).success = true → (getContact L id).data.isSome = true) ∧
    ((addContact L ts name phone w).resp.success = true →
      (addContact L ts name phone w).resp.data.isSome = true) ∧
    ((updateContact L id name phone w).resp.success = true →
      (updateContact L id name phone w).resp.data.isSome = true) ∧
    ((deleteContact L id w).resp.success = true →
      (deleteContact L id w).resp.data = none) := by
  refine ⟨⟨rfl, rfl⟩, ?_, ?_, ?_, ?_⟩
  · unfold getContact
    cases L.find? (fun c => c.id == id) <;> simp
  · unfold addContact
    split
    · simp
    · split <;> simp
  · unfold updateContact
    split
    · simp
    · cases L.findIdx? (fun c => c.id == id) <;> simp <;> split <;> simp
  · unfold deleteContact
    by_cases hid0 : id = "" <;>
      by_cases hlen : (L.filter fun c => !(c.id == id)).length = L.length <;>
        by_cases hw : w <;> simp [hid0, hlen, hw]

/-- Claim C3 (witness for the amended theorem): on a concrete collection,
the success response of GET one carries a data payload. -/
theorem envelope_spec_witness :
    (getContact [⟨"1", "a", "2"⟩] "1").data.isSome = true :=
  (envelope_spec [⟨"1", "a", "2"⟩] "1" "x" "y" 0 true).2.1 (by decide)

/-- Claim C7: when name or phone is empty after trimming, the POST handler
answers 400 with the validation envelope, the persisted collection is
unchanged, and neither readContacts nor writeContacts is invoked (the
validation check precedes the load). -/
theorem add_invalid_rejected (L : List Contact) (ts : Nat)
    (name phone : String) (w : Bool)
    (h : jsStringTrim name = "" ∨ jsStringTrim phone = "") :
    (addContact L ts name phone w).resp.status = 400 ∧
    (addContact L ts name phone w).resp.success = false ∧
    (addContact L ts name phone w).state = L ∧
    (addContact L ts name phone w).effects = [] := by
  unfold addContact
  rw [if_pos h]
  exact ⟨rfl, rfl, rfl, rfl⟩

/-- Claim C7 (witness): Add with a blank name and nonblank phone is
rejected at a concrete input. -/
theorem add_invalid_rejected_witness :
    (jsStringTrim " " = "" ∨ jsStringTrim "555" = "") ∧
    (addContact [⟨"1", "a", "2"⟩] 7 " " "555" true).resp.status = 400 ∧
    (addContact [⟨"1", "a", "2"⟩] 7 " " "555" true).resp.success = false ∧
    (addContact [⟨"1", "a", "2"⟩] 7 " " "555" true).state = [⟨"1", "a", "2"⟩] ∧
    (addContact [⟨"1", "a", "2"⟩] 7 " " "555" true).effects = [] :=
  ⟨Or.inl (by decide), add_invalid_rejected [⟨"1", "a", "2"⟩] 7 " " "555" true (Or.inl (by decide))⟩

/-- Claim C8: a successful Save of a valid collection followed by Load
yields the same collection: the loaded value is exactly the serialized
array, element for element in order, and it decodes back to the original
records with the same id, name and phone. -/
theorem save_load_roundtrip (L : List Contact) :
    readContacts (writeContacts L) = .arr (L.map encodeContact) ∧
    decodeContacts (.arr (L.map encodeContact)) = some L := by
  exact ⟨rfl, mapM_decode_encode L⟩

/-- Claim C9 (counterexample): the claim states that omitting phone leads
to the internal-error envelope (500), but when name is present and is the
empty string the validation expression short-circuits before phone.trim()
is evaluated, so the handler answers 400, not 500. -/
theorem post_empty_name_missing_phone_cex :
    isStr (JsVal.str "") = true ∧
    (postHandler [] 0 (.str "") .undef true).resp.status = 400 ∧
    (postHandler [] 0 (.str "") .undef true).resp.status ≠ 500 := by
  decide

/-- Claim C9 (amended): a request body whose name is omitted or non-string
makes the POST and PUT handlers answer with the generic 500 envelope (the
TypeError from trimming is absorbed by the catch branch); the same holds
for an omitted or non-string phone provided name is a string with nonempty
trim — but when name is a string that trims to empty, the handlers answer
400 without ever evaluating phone. -/
theorem nonstring_body_internal_error (L : List Contact) (id : String)
    (ts : Nat) (name phone : JsVal) (w : Bool) (hid : id ≠ "") :
    (isStr name = false →
      (postHandler L ts name phone w).resp = ⟨500, false, "添加失败", none⟩ ∧
      (putHandler L id name phone w).resp = ⟨500, false, "修改失败", none⟩) ∧
    (∀ s, name = .str s → jsStringTrim s ≠ "" → isStr phone = false →
      (postHandler L ts name phone w).resp = ⟨500, false, "添加失败", none⟩ ∧
      (putHandler L id name phone w).resp = ⟨500, false, "修改失败", none⟩) ∧
    (∀ s, name = .str s → jsStringTrim s = "" →
      (postHandler L ts name phone w).resp.status = 400 ∧
      (putHandler L id name phone w).resp.status = 400) := by
  refine ⟨?_, ?_, ?_⟩
  · intro hname
    have htrim : jsTrim name = .error () := by
      cases name <;> simp [jsTrim] <;> simp [isStr] at hname
    constructor
    · unfold postHandler
      rw [htrim]
    · unfold putHandler
      rw [if_neg hid, htrim]
  · intro s hs hst hphone
    have htrimn : jsTrim name = .ok (jsStringTrim s) := by rw [hs]; rfl
    have htrimp : jsTrim phone = .error () := by
      cases phone <;> simp [jsTrim] <;> simp [isStr] at hphone
    constructor
    · unfold postHandler
      rw [htrimn]
      simp only [if_neg hst, htrimp]
    · unfold putHandler
      rw [if_neg hid, htrimn]
      simp only [if_neg hst, htrimp]
  · intro s hs hst
    have htrimn : jsTrim name = .ok (jsStringTrim s) := by rw [hs]; rfl
    constructor
    · unfold postHandler
      rw [htrimn]
      simp [hst]
    · unfold putHandler
      rw [if_neg hid, htrimn]
      simp [hst]

/-- Claim C9 (witness for the amended theorem): a numeric name yields the
500 envelope on both handlers at a concrete input. -/
theorem nonstring_body_internal_error_witness :
    isStr (JsVal.num 5) = false ∧
    (postHandler [] 0 (.num 5) (.str "1") true).resp = ⟨500, false, "添加失败", none⟩ ∧
    (putHandler [] "1" (.num 5) (.str "1") true).resp = ⟨500, false, "修改失败", none⟩ :=
  ⟨rfl, (nonstring_body_internal_error [] "1" 0 (.num 5) (.str "1") true (by decide)).1 rfl⟩

/-- Claim C4: after a successful Add of a (name, phone) pair that is valid
and whose generated id (the stringified timestamp) is not already present
in the collection, Get on the returned id answers 200 with a record whose
name and phone are the trimmed inputs. -/
theorem add_then_get (L : List Contact) (ts : Nat) (name phone : String)
    (hn : jsStringTrim name ≠ "") (hp : jsStringTrim phone ≠ "")
    (hfresh : ∀ c ∈ L, c.id ≠ toString ts) :
    (addContact L ts name phone true).resp.status = 201 ∧
    getContact (addContact L ts name phone true).state (toString ts) =
      { status := 200, success := true, message := "获取成功",
        data := some (.contact ⟨toString ts, jsStringTrim name, jsStringTrim phone⟩) } := by
  have hcond : ¬ (jsStringTrim name = "" ∨ jsStringTrim phone = "") := by
    rintro (h | h)
    · exact hn h
    · exact hp h
  have hstate : (addContact L ts name phone true).state =
      L ++ [⟨toString ts, jsStringTrim name, jsStringTrim phone⟩] := by
    unfold addContact
    rw [if_neg hcond]
    rfl
  refine ⟨?_, ?_⟩
  · unfold addContact
    rw [if_neg hcond]
    rfl
  · rw [hstate]
    unfold getContact
    have h1 : L.find? (fun c => c.id == toString ts) = none :=
      List.find?_eq_none.mpr fun c hc => by simpa using hfresh c hc
    have h2 : (L ++ [(⟨toString ts, jsStringTrim name, jsStringTrim phone⟩ : Contact)]).find?
        (fun c => c.id == toString ts) =
        some ⟨toString ts, jsStringTrim name, jsStringTrim phone⟩ := by
      rw [List.find?_append, h1]
      simp [List.find?]
    rw [h2]

/-- Claim C4 (witness): adding a contact to the empty collection and
reading it back by the returned id yields the trimmed fields. -/
theorem add_then_get_witness :
    jsStringTrim " Ann " ≠ "" ∧ jsStringTrim "123" ≠ "" ∧
    (∀ c ∈ ([] : List Contact), c.id ≠ toString 5) ∧
    ((addContact [] 5 " Ann " "123" true).resp.status = 201 ∧
      getContact (addContact [] 5 " Ann " "123" true).state (toString 5) =
        { status := 200, success := true, message := "获取成功",
          data := some (.contact ⟨toString 5, jsStringTrim " Ann ", jsStringTrim "123"⟩) }) :=
  ⟨by decide, by decide, by decide,
    add_then_get [] 5 " Ann " "123" (by decide) (by decide) (by decide)⟩

/-- Claim C5: a successful Update on an existing id with valid name and
phone replaces exactly the first record carrying that id, at its original
position i: the response is 200, the length is unchanged, the record at i
becomes the fresh record with the same id and the trimmed fields, every
other position is untouched, and Get on the id afterwards returns the new
name and phone. -/
theorem update_existing_spec (L : List Contact) (id name phone : String)
    (hid : id ≠ "") (hn : jsStringTrim name ≠ "") (hp : jsStringTrim phone ≠ "")
    (hmem : ∃ c ∈ L, c.id = id) :
    ∃ i, L.findIdx? (fun c => c.id == id) = some i ∧
      (updateContact L id name phone true).resp.status = 200 ∧
      (updateContact L id name phone true).state.length = L.length ∧
      (updateContact L id name phone true).state[i]? =
        some ⟨id, jsStringTrim name, jsStringTrim phone⟩ ∧
      L[i]?.map (fun c => c.id) = some id ∧
      (∀ j, j ≠ i → (updateContact L id name phone true).state[j]? = L[j]?) ∧
      getContact (updateContact L id name phone true).state id =
        { status := 200, success := true, message := "获取成功",
          data := some (.contact ⟨id, jsStringTrim name, jsStringTrim phone⟩) } := by
  obtain ⟨c, hc, hcid⟩ := hmem
  have hex : ∃ x ∈ L, (fun c => c.id == id) x = true := ⟨c, hc, by simpa using hcid⟩
  have hfind := List.findIdx?_eq_some_of_exists hex
  have hlt : L.findIdx (fun c => c.id == id) < L.length :=
    List.findIdx_lt_length_of_exists hex
  have hcond : ¬ (id = "" ∨ jsStringTrim name = "" ∨ jsStringTrim phone = "") := by
    rintro (h | h | h)
    · exact hid h
    · exact hn h
    · exact hp h
  have hstate : (updateContact L id name phone true).state =
      L.set (L.findIdx fun c => c.id == id)
        ⟨id, jsStringTrim name, jsStringTrim phone⟩ := by
    unfold updateContact
    rw [if_neg hcond, hfind]
    rfl
  have hpid : (L.get ⟨L.findIdx fun c => c.id == id, hlt⟩).id = id := by
    have := @List.findIdx_getElem _ (fun c => c.id == id) L hlt
    simpa using this
  refine ⟨L.findIdx fun c => c.id == id, hfind, ?_, ?_, ?_, ?_, ?_, ?_⟩
  · unfold updateContact
    rw [if_neg hcond, hfind]
    rfl
  · rw [hstate, List.length_set]
  · rw [hstate]
    exact List.getElem?_set_self hlt
  · rw [List.getElem?_eq_getElem hlt]
    simpa using hpid
  · intro j hj
    rw [hstate]
    exact List.getElem?_set_ne fun h => hj h.symm
  · rw [hstate]
    unfold getContact
    have hfound : (L.set (L.findIdx fun c => c.id == id)
          ⟨id, jsStringTrim name, jsStringTrim phone⟩).find?
        (fun c => c.id == id) = some ⟨id, jsStringTrim name, jsStringTrim phone⟩ := by
      apply List.find?_eq_some_iff_getElem.mpr
      refine ⟨by simp, L.findIdx fun c => c.id == id, by rw [List.length_set]; exact hlt,
        List.getElem_set_self _, ?_⟩
      intro j hj
      have hij : (L.findIdx fun c => c.id == id) ≠ j := by omega
      rw [List.getElem_set_ne hij]
      have hfalse := @List.not_of_lt_findIdx _ (fun c => c.id == id) L j hj
      simp [hfalse]
    rw [hfound]

/-- Claim C5 (witness): updating the second of two contacts replaces it in
place and Get returns the new fields. -/
theorem update_existing_spec_witness :
    ("2" : String) ≠ "" ∧ jsStringTrim " Bob " ≠ "" ∧ jsStringTrim "77" ≠ "" ∧
    (∃ c ∈ [(⟨"1", "a", "2"⟩ : Contact), ⟨"2", "b", "3"⟩], c.id = "2") ∧
    (∃ i, ([(⟨"1", "a", "2"⟩ : Contact), ⟨"2", "b", "3"⟩].findIdx?
        (fun c => c.id == "2") = some i) ∧
      (updateContact [⟨"1", "a", "2"⟩, ⟨"2", "b", "3"⟩] "2" " Bob " "77" true).resp.status = 200 ∧
      (updateContact [⟨"1", "a", "2"⟩, ⟨"2", "b", "3"⟩] "2" " Bob " "77" true).state.length =
        ([(⟨"1", "a", "2"⟩ : Contact), ⟨"2", "b", "3"⟩] : List Contact).length ∧
      (updateContact [⟨"1", "a", "2"⟩, ⟨"2", "b", "3"⟩] "2" " Bob " "77" true).state[i]? =
        some ⟨"2", jsStringTrim " Bob ", jsStringTrim "77"⟩ ∧
      ([(⟨"1", "a", "2"⟩ : Contact), ⟨"2", "b", "3"⟩] : List Contact)[i]?.map (fun c => c.id) = some "2" ∧
      (∀ j, j ≠ i →
        (updateContact [⟨"1", "a", "2"⟩, ⟨"2", "b", "3"⟩] "2" " Bob " "77" true).state[j]? =
          ([(⟨"1", "a", "2"⟩ : Contact), ⟨"2", "b", "3"⟩] : List Contact)[j]?) ∧
      getContact (updateContact [⟨"1", "a", "2"⟩, ⟨"2", "b", "3"⟩] "2" " Bob " "77" true).state "2" =
        { status := 200, success := true, message := "获取成功",
          data := some (.contact ⟨"2", jsStringTrim " Bob ", jsStringTrim "77"⟩) }) :=
  ⟨by decide, by decide, by decide, ⟨⟨"2", "b", "3"⟩, by decide, rfl⟩,
    update_existing_spec [⟨"1", "a", "2"⟩, ⟨"2", "b", "3"⟩] "2" " Bob " "77"
      (by decide) (by decide) (by decide) ⟨⟨"2", "b", "3"⟩, by decide, rfl⟩⟩

/-- Claim C6: on a collection with pairwise-distinct ids, a successful
Delete of a present id answers 200, shrinks the collection by exactly one
record, leaves no record with that id (Get afterwards answers 404); and a
Delete of an absent id answers 404 and leaves the collection unchanged. -/
theorem delete_spec (L : List Contact) (id : String) (hid : id ≠ "")
    (hnodup : (L.map fun c => c.id).Nodup) :
    ((∃ c ∈ L, c.id = id) →
      (deleteContact L id true).resp.status = 200 ∧
      (deleteContact L id true).state.length + 1 = L.length ∧
      (∀ c ∈ (deleteContact L id true).state, c.id ≠ id) ∧
      (getContact (deleteContact L id true).state id).status = 404) ∧
    ((∀ c ∈ L, c.id ≠ id) →
      (deleteContact L id true).resp.status = 404 ∧
      (deleteContact L id true).state = L) := by
  constructor
  · intro hmem
    have hcnt := countP_id_eq_one L id hnodup hmem
    have hlen := length_filter_ne_add_countP L id
    have hflt : (L.filter fun c => !(c.id == id)).length + 1 = L.length := by omega
    have hne : ¬ ((L.filter fun c => !(c.id == id)).length = L.length) := by omega
    have hstate : (deleteContact L id true).state = L.filter fun c => !(c.id == id) := by
      unfold deleteContact
      rw [if_neg hid, if_neg hne]
      rfl
    refine ⟨?_, ?_, ?_, ?_⟩
    · unfold deleteContact
      rw [if_neg hid, if_neg hne]
      rfl
    · rw [hstate]
      exact hflt
    · rw [hstate]
      intro c hcf
      have := (List.mem_filter.mp hcf).2
      simpa using this
    · rw [hstate]
      unfold getContact
      have hnone : (L.filter fun c => !(c.id == id)).find? (fun c => c.id == id) = none :=
        List.find?_eq_none.mpr fun x hx => by
          have := (List.mem_filter.mp hx).2
          simpa using this
      rw [hnone]
  · intro hall
    have heq : (L.filter fun c => !(c.id == id)) = L :=
      List.filter_eq_self.mpr fun a ha => by simpa using hall a ha
    have hlen : (L.filter fun c => !(c.id == id)).length = L.length := by rw [heq]
    constructor
    · unfold deleteContact
      rw [if_neg hid, if_pos hlen]
    · unfold deleteContact
      rw [if_neg hid, if_pos hlen]

/-- Claim C6 (witness): deleting a present id from a two-record collection
removes exactly that record, and Get afterwards answers 404. -/
theorem delete_spec_witness :
    ("1" : String) ≠ "" ∧
    ([(⟨"1", "a", "2"⟩ : Contact), ⟨"2", "b", "3"⟩].map fun c => c.id).Nodup ∧
    (∃ c ∈ [(⟨"1", "a", "2"⟩ : Contact), ⟨"2", "b", "3"⟩], c.id = "1") ∧
    ((deleteContact [⟨"1", "a", "2"⟩, ⟨"2", "b", "3"⟩] "1" true).resp.status = 200 ∧
      (deleteContact [⟨"1", "a", "2"⟩, ⟨"2", "b", "3"⟩] "1" true).state.length + 1 =
        ([(⟨"1", "a", "2"⟩ : Contact), ⟨"2", "b", "3"⟩] : List Contact).length ∧
      (∀ c ∈ (deleteContact [⟨"1", "a", "2"⟩, ⟨"2", "b", "3"⟩] "1" true).state, c.id ≠ "1") ∧
      (getContact (deleteContact [⟨"1", "a", "2"⟩, ⟨"2", "b", "3"⟩] "1" true).state "1").status = 404) :=
  ⟨by decide, by decide, ⟨⟨"1", "a", "2"⟩, by decide, rfl⟩,
    (delete_spec [⟨"1", "a", "2"⟩, ⟨"2", "b", "3"⟩] "1" (by decide) (by decide)).1
      ⟨⟨"1", "a", "2"⟩, by decide, rfl⟩⟩

/-- Claim C10: a successful Update on an existing record replaces the
stored record at its position by a fresh object holding exactly the fields
id, name and phone; any further fields the stored record carried in the
durable artifact are discarded. -/
theorem update_discards_extra_fields (records : List Json)
    (id name phone : String) (i : Nat)
    (hfind : records.findIdx? (jsonIdMatches id) = some i) :
    (updateContactsJ records id name phone)[i]? =
      some (.obj [("id", .str id), ("name", .str (jsStringTrim name)),
                  ("phone", .str (jsStringTrim phone))]) := by
  have hlt : i < records.length :=
    (List.findIdx?_eq_some_iff_findIdx_eq.mp hfind).1
  unfold updateContactsJ
  rw [hfind]
  exact List.getElem?_set_self hlt

/-- Claim C10 (witness): updating a hand-edited record that carries an
extra note field replaces it by the three-field object. -/
theorem update_discards_extra_fields_witness :
    ([Json.obj [("id", .str "1"), ("name", .str "a"), ("phone", .str "2"),
                ("note", .str "x")]].findIdx? (jsonIdMatches "1") = some 0) ∧
    (updateContactsJ
        [Json.obj [("id", .str "1"), ("name", .str "a"), ("phone", .str "2"),
                   ("note", .str "x")]] "1" " b " "9")[0]? =
      some (.obj [("id", .str "1"), ("name", .str "b"), ("phone", .str "9")]) :=
  ⟨by decide, update_discards_extra_fields _ "1" " b " "9" 0 (by decide)⟩

end ContactsServer
